import Mathlib

/-!
# Verification of the product background-removal pipeline

A shallow embedding of `src/processor.py` and `src/app.py` of the
`product-bg-remover` repository, together with proofs of the specified
properties of the pipeline.

Conventions of the embedding:
* A raster is a width, a height and a pixel function; channel values are
  natural numbers (intended range 0–255).  All rasters are RGBA, matching
  the pipeline which converts every image to RGBA on entry.
* Python float literals (`0.65`, `0.7`, …) are embedded as exact rationals;
  `int(x)` on a nonnegative value is embedded as the floor.
* External collaborators (the `rembg` segmentation model, the on-disk
  background-asset catalog, the film-grain noise source) are parameters of
  an `Env` record, exactly the interface the spec assigns to them.
* PIL pixel-level primitives that no verified property depends on
  (Gaussian blur, Lanczos resampling content, convolution kernels) are
  embedded as dimension-faithful computable stand-ins; every property
  proved below depends only on dimensions, control flow, labels, and the
  exact pixel data that reaches `is_product_white` (which only ever flows
  through faithful crop/paste operations).
-/

/-- One RGBA pixel: red, green, blue, alpha channels (intended 0–255). -/
structure RGBA where
  r : Nat
  g : Nat
  b : Nat
  a : Nat
deriving DecidableEq

/-- An RGBA raster: dimensions plus a pixel function.  `px x y` is only
meaningful for `x < w`, `y < h`; every operation below restricts itself to
that range. -/
structure Raster where
  w : Nat
  h : Nat
  px : Nat → Nat → RGBA

/-- A single-channel (grayscale / alpha) raster, as produced by
`image.split()[-1]` in the source. -/
structure Mask where
  w : Nat
  h : Nat
  px : Nat → Nat → Nat

/-- The fully transparent pixel. -/
def RGBA.clear : RGBA := ⟨0, 0, 0, 0⟩

/-- Coordinates of the pixels with non-zero alpha (the numpy mask
`alpha > 0` of `is_product_white`, and the region PIL's `getbbox` bounds). -/
def opaqueCoords (img : Raster) : Finset (Nat × Nat) :=
  (Finset.range img.w ×ˢ Finset.range img.h).filter fun p => 0 < (img.px p.1 p.2).a

/-- Row-major list of the pixels with non-zero alpha: the order numpy's
boolean-mask indexing `rgb[mask]` enumerates them in `is_product_white`. -/
def opaquePixels (img : Raster) : List RGBA :=
  ((List.range img.h).map fun y =>
    ((List.range img.w).filter fun x => decide (0 < (img.px x y).a)).map
      fun x => img.px x y).flatten

/-- `is_product_white(image, threshold=200)` from `src/processor.py` lines
19–43: mean of all R,G,B entries of the non-transparent pixels (numpy
`np.mean(rgb[mask])`, a mean over `3·k` channel values), compared strictly
against the threshold; `False` when no pixel is opaque.  The float
comparison `mean > threshold` is embedded exactly, cross-multiplied into an
integer inequality (`threshold < S/(3k)  ↔  threshold.num·3k < S·threshold.den`
for `k > 0`; `is_product_white_iff` below proves the mean form) so that
concrete instances kernel-evaluate.  The source's default threshold is 200;
call sites pass it explicitly here. -/
def is_product_white (img : Raster) (threshold : ℚ) : Bool :=
  let pixels := opaquePixels img
  if pixels.length = 0 then false
  else decide (threshold.num * (3 * (pixels.length : Int)) <
    ((pixels.map fun c => ((c.r : Int) + c.g + c.b)).sum) * (threshold.den : Int))

/-- A PIL bounding box `(left, upper, right, lower)`: left/upper inclusive,
right/lower exclusive. -/
structure Box where
  left : Nat
  upper : Nat
  right : Nat
  lower : Nat
deriving DecidableEq

/-- `Image.getbbox()` on an RGBA image (PIL default `alpha_only=True`): the
smallest box containing every pixel of non-zero alpha, `None` if the image
is fully transparent. -/
def getbbox (img : Raster) : Option Box :=
  if h : (opaqueCoords img).Nonempty then
    some { left := ((opaqueCoords img).image Prod.fst).min' (h.image _)
         , upper := ((opaqueCoords img).image Prod.snd).min' (h.image _)
         , right := ((opaqueCoords img).image Prod.fst).max' (h.image _) + 1
         , lower := ((opaqueCoords img).image Prod.snd).max' (h.image _) + 1 }
  else none

/-- `Image.crop(box)` for a box lying inside the image. -/
def crop (img : Raster) (b : Box) : Raster :=
  { w := b.right - b.left
  , h := b.lower - b.upper
  , px := fun x y => img.px (b.left + x) (b.upper + y) }

/-- The trim step of `process_product_photo` (`src/processor.py` lines
311–313): crop to `getbbox` when it is non-empty, otherwise leave the
raster untouched (the source has no `else` branch and raises nothing). -/
def trimToContent (img : Raster) : Raster :=
  match getbbox img with
  | some b => crop img b
  | none => img

/-- The safe-zone padding step (`src/processor.py` lines 317–321): paste the
raster at `(m, m)` onto a fully transparent canvas `2·m` pixels larger in
each dimension. -/
def padImage (img : Raster) (m : Nat) : Raster :=
  { w := img.w + m * 2
  , h := img.h + m * 2
  , px := fun x y =>
      if m ≤ x ∧ x < m + img.w ∧ m ≤ y ∧ y < m + img.h then
        img.px (x - m) (y - m)
      else RGBA.clear }

/-! ## Basic facts about `opaqueCoords`, `opaquePixels` and `is_product_white` -/

/-- Membership in the opaque-coordinate set, unfolded. -/
lemma mem_opaqueCoords {img : Raster} {p : Nat × Nat} :
    p ∈ opaqueCoords img ↔ p.1 < img.w ∧ p.2 < img.h ∧ 0 < (img.px p.1 p.2).a := by
  simp [opaqueCoords, Finset.mem_filter, Finset.mem_product, and_assoc]

/-- Sum of a mapped `List.range` equals the `Finset.range` sum. -/
lemma list_range_map_sum {M : Type} [AddCommMonoid M] (n : Nat) (f : Nat → M) :
    ((List.range n).map f).sum = ∑ x in Finset.range n, f x := by
  induction n with
  | zero => simp
  | succ n ih =>
      rw [List.range_succ, List.map_append, List.sum_append, Finset.sum_range_succ, ih]
      simp

/-- Summing a map over a filtered list equals summing an `if` over the list. -/
lemma list_filter_map_sum {M : Type} [AddCommMonoid M] (l : List Nat) (p : Nat → Bool)
    (f : Nat → M) :
    ((l.filter p).map f).sum = (l.map fun x => if p x then f x else 0).sum := by
  induction l with
  | nil => simp
  | cons a l ih => by_cases h : p a <;> simp [List.filter_cons, h, ih]

/-- A sum over `opaqueCoords` as an iterated row/column sum. -/
lemma opaqueCoords_sum {M : Type} [AddCommMonoid M] (img : Raster) (f : Nat → Nat → M) :
    ∑ p in opaqueCoords img, f p.1 p.2
      = ∑ y in Finset.range img.h, ∑ x in Finset.range img.w,
          if 0 < (img.px x y).a then f x y else 0 := by
  unfold opaqueCoords
  rw [Finset.sum_filter, Finset.sum_product]
  exact Finset.sum_comm

/-- The row-major opaque-pixel list and the opaque-coordinate set produce the
same sums: numpy's flattened enumeration and the set view agree. -/
lemma opaquePixels_map_sum {M : Type} [AddCommMonoid M] (img : Raster) (f : RGBA → M) :
    ((opaquePixels img).map f).sum = ∑ p in opaqueCoords img, f (img.px p.1 p.2) := by
  unfold opaquePixels
  rw [List.map_flatten, List.map_map, List.sum_flatten, List.map_map]
  rw [opaqueCoords_sum img (fun x y => f (img.px x y))]
  rw [list_range_map_sum]
  refine Finset.sum_congr rfl fun y _ => ?_
  simp only [Function.comp]
  rw [List.map_map, list_filter_map_sum, list_range_map_sum]
  refine Finset.sum_congr rfl fun x _ => ?_
  simp [Function.comp]

/-- The opaque-pixel list has exactly `card (opaqueCoords)` entries. -/
lemma opaquePixels_length (img : Raster) :
    (opaquePixels img).length = (opaqueCoords img).card := by
  have h1 : ∀ l : List RGBA, l.length = (l.map fun _ => (1 : ℕ)).sum := by
    intro l
    induction l with
    | nil => rfl
    | cons a l ih => rw [List.length_cons, List.map_cons, List.sum_cons, ih, Nat.add_comm]
  rw [h1, opaquePixels_map_sum img (fun _ => (1 : ℕ)), Finset.card_eq_sum_ones]

/-- Total R+G+B over the opaque pixels, as a rational. -/
def brightSum (img : Raster) : ℚ :=
  ∑ p in opaqueCoords img,
    (((img.px p.1 p.2).r : ℚ) + (img.px p.1 p.2).g + (img.px p.1 p.2).b)

/-- Mean of the R,G,B channel values over exactly the pixels with positive
alpha (a mean over `3·k` channel values for `k` opaque pixels). -/
def meanBrightness (img : Raster) : ℚ :=
  brightSum img / (3 * (opaqueCoords img).card)

/-- Cross-multiplication: the integer comparison of `is_product_white` is
exactly the rational mean comparison. -/
lemma rat_cross_lt (t : ℚ) (S : ℤ) (k : ℕ) (hk : 0 < k) :
    (t.num * (3 * (k : ℤ)) < S * (t.den : ℤ)) ↔ t < (S : ℚ) / (3 * (k : ℚ)) := by
  have hden : (0 : ℚ) < (t.den : ℚ) := by exact_mod_cast t.den_pos
  have hk3 : (0 : ℚ) < 3 * (k : ℚ) := by positivity
  rw [lt_div_iff₀ hk3]
  have h1 : t * (3 * (k : ℚ)) < (S : ℚ)
      ↔ ((t.num : ℚ) / (t.den : ℚ)) * (3 * (k : ℚ)) < (S : ℚ) := by
    rw [Rat.num_div_den]
  rw [h1, div_mul_eq_mul_div, div_lt_iff₀ hden]
  constructor
  · intro h
    exact_mod_cast h
  · intro h
    exact_mod_cast h

/-- Characterization of `is_product_white` by the opaque-pixel mean. -/
lemma is_product_white_iff (img : Raster) (t : ℚ) :
    is_product_white img t = true ↔
      (opaqueCoords img).Nonempty ∧ t < meanBrightness img := by
  unfold is_product_white
  have hlen := opaquePixels_length img
  have hsum := opaquePixels_map_sum img (fun c => ((c.r : Int) + c.g + c.b))
  by_cases h : (opaquePixels img).length = 0
  · have hcard : (opaqueCoords img).card = 0 := by omega
    simp [h, Finset.nonempty_iff_ne_empty, Finset.card_eq_zero.mp hcard]
  · have hcard : 0 < (opaqueCoords img).card := by omega
    have hne : (opaqueCoords img).Nonempty := Finset.card_pos.mp hcard
    have hbright : brightSum img
        = ((∑ p in opaqueCoords img,
            (((img.px p.1 p.2).r : Int) + (img.px p.1 p.2).g + (img.px p.1 p.2).b) : ℤ) : ℚ) := by
      unfold brightSum
      push_cast
      rfl
    simp only [h, if_false, decide_eq_true_eq, hsum, hlen, hne, true_and]
    rw [if_neg (Nat.pos_iff_ne_zero.mp hcard), decide_eq_true_eq,
      rat_cross_lt t _ _ hcard]
    unfold meanBrightness
    rw [hbright]

/-- `is_product_white` depends on the raster only through the cardinality of
its opaque-coordinate set and the brightness sum over it. -/
lemma is_product_white_congr (A B : Raster) (t : ℚ)
    (hc : (opaqueCoords A).card = (opaqueCoords B).card)
    (hs : brightSum A = brightSum B) :
    is_product_white A t = is_product_white B t := by
  have hne : (opaqueCoords A).Nonempty ↔ (opaqueCoords B).Nonempty := by
    rw [← Finset.card_pos, ← Finset.card_pos, hc]
  have hmean : meanBrightness A = meanBrightness B := by
    unfold meanBrightness
    rw [hc, hs]
  have hiff : is_product_white A t = true ↔ is_product_white B t = true := by
    rw [is_product_white_iff, is_product_white_iff, hmean, hne]
  cases hbA : is_product_white A t <;> cases hbB : is_product_white B t <;> simp_all

/-! ## Facts about `getbbox`, `crop`, `padImage` -/

/-- A successful `getbbox` is exactly the min/max data of `opaqueCoords`. -/
lemma getbbox_some_spec {img : Raster} {b : Box} (hb : getbbox img = some b) :
    ∃ hne : (opaqueCoords img).Nonempty,
      b.left = ((opaqueCoords img).image Prod.fst).min' (hne.image _) ∧
      b.upper = ((opaqueCoords img).image Prod.snd).min' (hne.image _) ∧
      b.right = ((opaqueCoords img).image Prod.fst).max' (hne.image _) + 1 ∧
      b.lower = ((opaqueCoords img).image Prod.snd).max' (hne.image _) + 1 := by
  rw [getbbox] at hb
  split at hb
  · rename_i hne
    injection hb with hb
    exact ⟨hne, by rw [← hb], by rw [← hb], by rw [← hb], by rw [← hb]⟩
  · exact absurd hb (by simp)

/-- `getbbox` returns `none` exactly on fully transparent rasters. -/
lemma getbbox_eq_none_iff (img : Raster) :
    getbbox img = none ↔ ¬(opaqueCoords img).Nonempty := by
  rw [getbbox]
  split
  · rename_i hne
    simp [hne]
  · rename_i hne
    simp [hne]

/-- Every opaque pixel lies inside the `getbbox` box. -/
lemma getbbox_contains {img : Raster} {b : Box} (hb : getbbox img = some b)
    {p : Nat × Nat} (hp : p ∈ opaqueCoords img) :
    b.left ≤ p.1 ∧ p.1 < b.right ∧ b.upper ≤ p.2 ∧ p.2 < b.lower := by
  obtain ⟨hne, hl, hu, hr, hlo⟩ := getbbox_some_spec hb
  have h1 : p.1 ∈ (opaqueCoords img).image Prod.fst := Finset.mem_image_of_mem _ hp
  have h2 : p.2 ∈ (opaqueCoords img).image Prod.snd := Finset.mem_image_of_mem _ hp
  refine ⟨hl ▸ Finset.min'_le _ _ h1, ?_, hu ▸ Finset.min'_le _ _ h2, ?_⟩
  · rw [hr]
    exact Nat.lt_succ_of_le (Finset.le_max' _ _ h1)
  · rw [hlo]
    exact Nat.lt_succ_of_le (Finset.le_max' _ _ h2)

/-- The left edge of the `getbbox` box is attained by an opaque pixel. -/
lemma getbbox_left_attained {img : Raster} {b : Box} (hb : getbbox img = some b) :
    ∃ p ∈ opaqueCoords img, p.1 = b.left := by
  obtain ⟨hne, hl, _, _, _⟩ := getbbox_some_spec hb
  have hm := Finset.min'_mem ((opaqueCoords img).image Prod.fst) (hne.image _)
  rw [Finset.mem_image] at hm
  obtain ⟨p, hp, hpe⟩ := hm
  exact ⟨p, hp, by rw [hl, hpe]⟩

/-- The right edge (exclusive) of the `getbbox` box is attained. -/
lemma getbbox_right_attained {img : Raster} {b : Box} (hb : getbbox img = some b) :
    ∃ p ∈ opaqueCoords img, p.1 + 1 = b.right := by
  obtain ⟨hne, _, _, hr, _⟩ := getbbox_some_spec hb
  have hm := Finset.max'_mem ((opaqueCoords img).image Prod.fst) (hne.image _)
  rw [Finset.mem_image] at hm
  obtain ⟨p, hp, hpe⟩ := hm
  exact ⟨p, hp, by rw [hr, hpe]⟩

/-- The top edge of the `getbbox` box is attained. -/
lemma getbbox_upper_attained {img : Raster} {b : Box} (hb : getbbox img = some b) :
    ∃ p ∈ opaqueCoords img, p.2 = b.upper := by
  obtain ⟨hne, _, hu, _, _⟩ := getbbox_some_spec hb
  have hm := Finset.min'_mem ((opaqueCoords img).image Prod.snd) (hne.image _)
  rw [Finset.mem_image] at hm
  obtain ⟨p, hp, hpe⟩ := hm
  exact ⟨p, hp, by rw [hu, hpe]⟩

/-- The bottom edge (exclusive) of the `getbbox` box is attained. -/
lemma getbbox_lower_attained {img : Raster} {b : Box} (hb : getbbox img = some b) :
    ∃ p ∈ opaqueCoords img, p.2 + 1 = b.lower := by
  obtain ⟨hne, _, _, _, hlo⟩ := getbbox_some_spec hb
  have hm := Finset.max'_mem ((opaqueCoords img).image Prod.snd) (hne.image _)
  rw [Finset.mem_image] at hm
  obtain ⟨p, hp, hpe⟩ := hm
  exact ⟨p, hp, by rw [hlo, hpe]⟩

/-- The `getbbox` box is nondegenerate and inside the raster. -/
lemma getbbox_bounds {img : Raster} {b : Box} (hb : getbbox img = some b) :
    b.left < b.right ∧ b.upper < b.lower ∧ b.right ≤ img.w ∧ b.lower ≤ img.h := by
  obtain ⟨pr, hpr, hpre⟩ := getbbox_right_attained hb
  obtain ⟨pl, hpl, hple⟩ := getbbox_lower_attained hb
  have hcr := getbbox_contains hb hpr
  have hcl := getbbox_contains hb hpl
  have hmr := mem_opaqueCoords.mp hpr
  have hml := mem_opaqueCoords.mp hpl
  omega

/-- The opaque coordinates of the crop-to-bbox are exactly the original
opaque coordinates, shifted. -/
lemma opaqueCoords_crop {img : Raster} {b : Box} (hb : getbbox img = some b) :
    opaqueCoords (crop img b)
      = (opaqueCoords img).image fun p => (p.1 - b.left, p.2 - b.upper) := by
  ext q
  rw [mem_opaqueCoords, Finset.mem_image]
  constructor
  · rintro ⟨hx, hy, ha⟩
    have hx2 : q.1 < b.right - b.left := hx
    have hy2 : q.2 < b.lower - b.upper := hy
    have ha2 : 0 < (img.px (b.left + q.1) (b.upper + q.2)).a := ha
    have hbd := getbbox_bounds hb
    have hmem : (b.left + q.1, b.upper + q.2) ∈ opaqueCoords img := by
      rw [mem_opaqueCoords]
      refine ⟨?_, ?_, ha2⟩
      · show b.left + q.1 < img.w
        omega
      · show b.upper + q.2 < img.h
        omega
    refine ⟨(b.left + q.1, b.upper + q.2), hmem, ?_⟩
    show (b.left + q.1 - b.left, b.upper + q.2 - b.upper) = q
    have e1 : b.left + q.1 - b.left = q.1 := by omega
    have e2 : b.upper + q.2 - b.upper = q.2 := by omega
    rw [e1, e2]
  · rintro ⟨p, hp, hpe⟩
    have hc := getbbox_contains hb hp
    have hm := mem_opaqueCoords.mp hp
    have e1 : q.1 = p.1 - b.left := by rw [← hpe]
    have e2 : q.2 = p.2 - b.upper := by rw [← hpe]
    have e3 : b.left + (p.1 - b.left) = p.1 := by omega
    have e4 : b.upper + (p.2 - b.upper) = p.2 := by omega
    refine ⟨?_, ?_, ?_⟩
    · show q.1 < b.right - b.left
      omega
    · show q.2 < b.lower - b.upper
      omega
    · show 0 < (img.px (b.left + q.1) (b.upper + q.2)).a
      rw [e1, e2, e3, e4]
      exact hm.2.2

/-- Shifting down by the bbox corner is injective on the opaque set. -/
lemma crop_shift_injOn {img : Raster} {b : Box} (hb : getbbox img = some b) :
    ∀ p ∈ opaqueCoords img, ∀ q ∈ opaqueCoords img,
      (p.1 - b.left, p.2 - b.upper) = (q.1 - b.left, q.2 - b.upper) → p = q := by
  intro p hp q hq he
  have hcp := getbbox_contains hb hp
  have hcq := getbbox_contains hb hq
  have h1 : p.1 - b.left = q.1 - b.left := congrArg Prod.fst he
  have h2 : p.2 - b.upper = q.2 - b.upper := congrArg Prod.snd he
  have : p.1 = q.1 := by omega
  have : p.2 = q.2 := by omega
  exact Prod.ext (by omega) (by omega)

/-- Cropping to the bounding box preserves the number of opaque pixels. -/
lemma card_opaqueCoords_crop {img : Raster} {b : Box} (hb : getbbox img = some b) :
    (opaqueCoords (crop img b)).card = (opaqueCoords img).card := by
  rw [opaqueCoords_crop hb]
  exact Finset.card_image_of_injOn fun p hp q hq => crop_shift_injOn hb p hp q hq

/-- Cropping to the bounding box preserves the brightness sum. -/
lemma brightSum_crop {img : Raster} {b : Box} (hb : getbbox img = some b) :
    brightSum (crop img b) = brightSum img := by
  unfold brightSum
  rw [opaqueCoords_crop hb, Finset.sum_image (crop_shift_injOn hb)]
  refine Finset.sum_congr rfl fun p hp => ?_
  have hc := getbbox_contains hb hp
  have e3 : b.left + (p.1 - b.left) = p.1 := by omega
  have e4 : b.upper + (p.2 - b.upper) = p.2 := by omega
  simp only [crop]
  rw [e3, e4]

/-- The opaque coordinates of the padded raster are the original ones,
shifted by the margin. -/
lemma opaqueCoords_pad (img : Raster) (m : Nat) :
    opaqueCoords (padImage img m)
      = (opaqueCoords img).image fun p => (p.1 + m, p.2 + m) := by
  ext q
  rw [mem_opaqueCoords, Finset.mem_image]
  constructor
  · rintro ⟨hx, hy, ha⟩
    have hx2 : q.1 < img.w + m * 2 := hx
    have hy2 : q.2 < img.h + m * 2 := hy
    have ha2 : 0 < (if m ≤ q.1 ∧ q.1 < m + img.w ∧ m ≤ q.2 ∧ q.2 < m + img.h then
        img.px (q.1 - m) (q.2 - m) else RGBA.clear).a := ha
    by_cases hin : m ≤ q.1 ∧ q.1 < m + img.w ∧ m ≤ q.2 ∧ q.2 < m + img.h
    · rw [if_pos hin] at ha2
      refine ⟨(q.1 - m, q.2 - m), ?_, ?_⟩
      · rw [mem_opaqueCoords]
        exact ⟨by show q.1 - m < img.w; omega, by show q.2 - m < img.h; omega, ha2⟩
      · show (q.1 - m + m, q.2 - m + m) = q
        have e1 : q.1 - m + m = q.1 := by omega
        have e2 : q.2 - m + m = q.2 := by omega
        rw [e1, e2]
    · rw [if_neg hin] at ha2
      exact absurd ha2 (by simp [RGBA.clear])
  · rintro ⟨p, hp, hpe⟩
    have hm := mem_opaqueCoords.mp hp
    have e1 : q.1 = p.1 + m := by rw [← hpe]
    have e2 : q.2 = p.2 + m := by rw [← hpe]
    have hin : m ≤ q.1 ∧ q.1 < m + img.w ∧ m ≤ q.2 ∧ q.2 < m + img.h := by omega
    refine ⟨?_, ?_, ?_⟩
    · show q.1 < img.w + m * 2
      omega
    · show q.2 < img.h + m * 2
      omega
    · show 0 < (if m ≤ q.1 ∧ q.1 < m + img.w ∧ m ≤ q.2 ∧ q.2 < m + img.h then
        img.px (q.1 - m) (q.2 - m) else RGBA.clear).a
      rw [if_pos hin]
      have e3 : q.1 - m = p.1 := by omega
      have e4 : q.2 - m = p.2 := by omega
      rw [e3, e4]
      exact hm.2.2

/-- Shifting up by the margin is injective. -/
lemma pad_shift_injOn (img : Raster) (m : Nat) :
    ∀ p ∈ opaqueCoords img, ∀ q ∈ opaqueCoords img,
      (p.1 + m, p.2 + m) = (q.1 + m, q.2 + m) → p = q := by
  intro p _ q _ he
  have h1 : p.1 + m = q.1 + m := congrArg Prod.fst he
  have h2 : p.2 + m = q.2 + m := congrArg Prod.snd he
  exact Prod.ext (by omega) (by omega)

/-- Padding preserves the number of opaque pixels. -/
lemma card_opaqueCoords_pad (img : Raster) (m : Nat) :
    (opaqueCoords (padImage img m)).card = (opaqueCoords img).card := by
  rw [opaqueCoords_pad]
  exact Finset.card_image_of_injOn fun p hp q hq => pad_shift_injOn img m p hp q hq

/-- Padding preserves the brightness sum. -/
lemma brightSum_pad (img : Raster) (m : Nat) :
    brightSum (padImage img m) = brightSum img := by
  unfold brightSum
  rw [opaqueCoords_pad, Finset.sum_image (pad_shift_injOn img m)]
  refine Finset.sum_congr rfl fun p hp => ?_
  have hm := mem_opaqueCoords.mp hp
  have hin : m ≤ p.1 + m ∧ p.1 + m < m + img.w ∧ m ≤ p.2 + m ∧ p.2 + m < m + img.h := by
    omega
  simp only [padImage]
  rw [if_pos hin]
  have e1 : p.1 + m - m = p.1 := by omega
  have e2 : p.2 + m - m = p.2 := by omega
  rw [e1, e2]

/-- `is_product_white` is invariant under the pipeline's trim-then-pad
preprocessing: only fully transparent pixels are discarded or added. -/
lemma is_product_white_trim_pad (img : Raster) (m : Nat) (t : ℚ) :
    is_product_white (padImage (trimToContent img) m) t = is_product_white img t := by
  have htrim : (opaqueCoords (trimToContent img)).card = (opaqueCoords img).card ∧
      brightSum (trimToContent img) = brightSum img := by
    unfold trimToContent
    cases hb : getbbox img with
    | some b => exact ⟨card_opaqueCoords_crop hb, brightSum_crop hb⟩
    | none => exact ⟨rfl, rfl⟩
  apply is_product_white_congr
  · rw [card_opaqueCoords_pad, htrim.1]
  · rw [brightSum_pad, htrim.2]

/-! ## PIL / numpy primitive operations

Pixel-content stand-ins are marked as such in their doc comments: they model
external PIL library primitives (not repository code), are faithful in
dimensions and structure, and no verified property depends on the pixel
values they produce. -/

/-- Clamp an integer channel value into 0–255 (numpy `np.clip` / PIL channel
saturation). -/
def clamp255 (v : Int) : Nat := (max 0 (min 255 v)).toNat

/-- `image.split()[-1]`: the alpha band. -/
def alphaMask (img : Raster) : Mask := ⟨img.w, img.h, fun x y => (img.px x y).a⟩

/-- `Image.new("L", (w, h), 0)`. -/
def Mask.zero (w h : Nat) : Mask := ⟨w, h, fun _ _ => 0⟩

/-- An all-transparent RGBA canvas, `Image.new("RGBA", (w, h), (0,0,0,0))`. -/
def clearRaster (w h : Nat) : Raster := ⟨w, h, fun _ _ => RGBA.clear⟩

/-- A solid-color RGBA canvas, `Image.new("RGBA", (w, h), color)`. -/
def solidRaster (w h : Nat) (c : RGBA) : Raster := ⟨w, h, fun _ _ => c⟩

/-- `dst.paste(src, pos)` on single-band images: replace the (clipped)
rectangle, keep `dst` elsewhere. -/
def pasteMask (dst src : Mask) (pos : Int × Int) : Mask :=
  ⟨dst.w, dst.h, fun x y =>
    if pos.1 ≤ (x : Int) ∧ (x : Int) < pos.1 + src.w ∧
       pos.2 ≤ (y : Int) ∧ (y : Int) < pos.2 + src.h then
      src.px ((x : Int) - pos.1).toNat ((y : Int) - pos.2).toNat
    else dst.px x y⟩

/-- `dst.paste(v, pos, mask)` with a constant fill value `v` and a mask:
blend the constant over `dst` weighted by the mask (PIL semantics, floored). -/
def pasteConstMask (dst : Mask) (v : Nat) (mask : Mask) (pos : Int × Int) : Mask :=
  ⟨dst.w, dst.h, fun x y =>
    if pos.1 ≤ (x : Int) ∧ (x : Int) < pos.1 + mask.w ∧
       pos.2 ≤ (y : Int) ∧ (y : Int) < pos.2 + mask.h then
      let mv := mask.px ((x : Int) - pos.1).toNat ((y : Int) - pos.2).toNat
      (dst.px x y * (255 - mv) + v * mv) / 255
    else dst.px x y⟩

/-- `dst.paste(src, pos, mask)` on RGBA images: blend `src` over `dst`
weighted per-pixel by the mask inside the clipped rectangle (PIL semantics,
floored), `dst` elsewhere. -/
def pasteMasked (dst src : Raster) (mask : Mask) (pos : Int × Int) : Raster :=
  ⟨dst.w, dst.h, fun x y =>
    if pos.1 ≤ (x : Int) ∧ (x : Int) < pos.1 + src.w ∧
       pos.2 ≤ (y : Int) ∧ (y : Int) < pos.2 + src.h then
      let sx := ((x : Int) - pos.1).toNat
      let sy := ((y : Int) - pos.2).toNat
      let mv := mask.px sx sy
      let d := dst.px x y
      let s := src.px sx sy
      { r := (d.r * (255 - mv) + s.r * mv) / 255
      , g := (d.g * (255 - mv) + s.g * mv) / 255
      , b := (d.b * (255 - mv) + s.b * mv) / 255
      , a := (d.a * (255 - mv) + s.a * mv) / 255 }
    else dst.px x y⟩

/-- `dst.paste(src, pos, mask=src)` on RGBA images: PIL takes the alpha band
of an RGBA mask. -/
def pasteImg (dst src : Raster) (pos : Int × Int) : Raster :=
  pasteMasked dst src (alphaMask src) pos

/-- The values of a clamped square window of half-width `r` around `(x, y)`. -/
def windowSamples (m : Mask) (r x y : Nat) : List Nat :=
  ((List.range (2 * r + 1)).map fun dy =>
    (List.range (2 * r + 1)).map fun dx =>
      m.px (min (x + dx - r) (m.w - 1)) (min (y + dy - r) (m.h - 1))).flatten

/-- Stand-in for `ImageFilter.GaussianBlur(radius)` on one band: a
dimension-preserving clamped-window mean with window half-width `⌈radius⌉`. -/
def gaussianBlurMask (m : Mask) (radius : ℚ) : Mask :=
  let r := (Int.ceil radius).toNat
  ⟨m.w, m.h, fun x y => (windowSamples m r x y).sum / (2 * r + 1) ^ 2⟩

/-- One channel of a raster as a mask. -/
def channelMask (img : Raster) (f : RGBA → Nat) : Mask :=
  ⟨img.w, img.h, fun x y => f (img.px x y)⟩

/-- Stand-in for `ImageFilter.GaussianBlur(radius)` on an RGBA image:
per-band blur, dimensions preserved. -/
def gaussianBlur (img : Raster) (radius : ℚ) : Raster :=
  ⟨img.w, img.h, fun x y =>
    { r := (gaussianBlurMask (channelMask img RGBA.r) radius).px x y
    , g := (gaussianBlurMask (channelMask img RGBA.g) radius).px x y
    , b := (gaussianBlurMask (channelMask img RGBA.b) radius).px x y
    , a := (gaussianBlurMask (channelMask img RGBA.a) radius).px x y }⟩

/-- `image.putalpha(mask)`. -/
def putalpha (img : Raster) (m : Mask) : Raster :=
  ⟨img.w, img.h, fun x y => { img.px x y with a := m.px x y }⟩

/-- `image.convert("RGB")`: drop transparency (alpha treated as 255 from
then on). -/
def toRGB (img : Raster) : Raster :=
  ⟨img.w, img.h, fun x y => { img.px x y with a := 255 }⟩

/-- `image.convert("L")`: ITU-R 601-2 luma transform (PIL's formula,
floored). -/
def toGray (img : Raster) : Mask :=
  ⟨img.w, img.h, fun x y =>
    ((img.px x y).r * 299 + (img.px x y).g * 587 + (img.px x y).b * 114) / 1000⟩

/-- A grayscale band replicated into RGB, `Image.merge("RGB", (m, m, m))`. -/
def grayToRGB (m : Mask) : Raster :=
  ⟨m.w, m.h, fun x y => ⟨m.px x y, m.px x y, m.px x y, 255⟩⟩

/-- `Image.merge("RGBA", (*rgb.split(), alpha))`. -/
def mergeRGBA (rgb : Raster) (alpha : Mask) : Raster :=
  ⟨rgb.w, rgb.h, fun x y => { rgb.px x y with a := alpha.px x y }⟩

/-- Stand-in for `ImageFilter.MinFilter(size)`: clamped-window minimum
(erosion); dimensions preserved. -/
def minFilterMask (m : Mask) (size : Nat) : Mask :=
  ⟨m.w, m.h, fun x y => (windowSamples m (size / 2) x y).foldr min 255⟩

/-- Stand-in for `ImageFilter.FIND_EDGES` (3×3 Laplacian-style kernel) on
one band: `9·center − window sum`, clamped; dimensions preserved. -/
def findEdgesMask (m : Mask) : Mask :=
  ⟨m.w, m.h, fun x y =>
    clamp255 (9 * (m.px x y : Int) - ((windowSamples m 1 x y).sum : Int))⟩

/-- Stand-in for `ImageFilter.SHARPEN` on one band: unsharp 3×3 kernel,
clamped; dimensions preserved. -/
def sharpenMask (m : Mask) : Mask :=
  ⟨m.w, m.h, fun x y =>
    clamp255 ((34 * (m.px x y : Int) - 2 * ((windowSamples m 1 x y).sum : Int)) / 16)⟩

/-- `image.filter(ImageFilter.SHARPEN)`: per-band sharpen. -/
def sharpen (img : Raster) : Raster :=
  ⟨img.w, img.h, fun x y =>
    { r := (sharpenMask (channelMask img RGBA.r)).px x y
    , g := (sharpenMask (channelMask img RGBA.g)).px x y
    , b := (sharpenMask (channelMask img RGBA.b)).px x y
    , a := (sharpenMask (channelMask img RGBA.a)).px x y }⟩

/-- `image.resize((w, h), resample)`: exact target dimensions; content is a
nearest-neighbor stand-in for the Lanczos/bicubic kernels. -/
def resize (img : Raster) (wh : Nat × Nat) : Raster :=
  ⟨wh.1, wh.2, fun x y => img.px (x * img.w / wh.1) (y * img.h / wh.2)⟩

/-- `mask.resize((w, h), resample)`, same stand-in on one band. -/
def resizeMask (m : Mask) (wh : Nat × Nat) : Mask :=
  ⟨wh.1, wh.2, fun x y => m.px (x * m.w / wh.1) (y * m.h / wh.2)⟩

/-- `image.crop((x, y, x + w, y + h))` at a possibly negative position:
out-of-bounds area reads as zero (PIL zero-fills). -/
def cropAt (img : Raster) (pos : Int × Int) (wh : Nat × Nat) : Raster :=
  ⟨wh.1, wh.2, fun x y =>
    let sx := pos.1 + x
    let sy := pos.2 + y
    if 0 ≤ sx ∧ sx < (img.w : Int) ∧ 0 ≤ sy ∧ sy < (img.h : Int) then
      img.px sx.toNat sy.toNat
    else RGBA.clear⟩

/-- `Image.alpha_composite(dst, src)`: source-over compositing, floored. -/
def alphaComposite (dst src : Raster) : Raster :=
  ⟨dst.w, dst.h, fun x y =>
    let d := dst.px x y
    let s := src.px x y
    let oA := s.a * 255 + d.a * (255 - s.a)
    if oA = 0 then RGBA.clear
    else
      { r := (s.r * s.a * 255 + d.r * d.a * (255 - s.a)) / oA
      , g := (s.g * s.a * 255 + d.g * d.a * (255 - s.a)) / oA
      , b := (s.b * s.a * 255 + d.b * d.a * (255 - s.a)) / oA
      , a := oA / 255 }⟩

/-- `Image.blend(a, b, t)`: linear interpolation, floored and clamped. -/
def blend (a b : Raster) (t : ℚ) : Raster :=
  ⟨a.w, a.h, fun x y =>
    let p := a.px x y
    let q := b.px x y
    { r := clamp255 ⌊(p.r : ℚ) + t * ((q.r : ℚ) - p.r)⌋
    , g := clamp255 ⌊(p.g : ℚ) + t * ((q.g : ℚ) - p.g)⌋
    , b := clamp255 ⌊(p.b : ℚ) + t * ((q.b : ℚ) - p.b)⌋
    , a := clamp255 ⌊(p.a : ℚ) + t * ((q.a : ℚ) - p.a)⌋ }⟩

/-- `ImageChops.multiply` on RGB images. -/
def multiplyRaster (a b : Raster) : Raster :=
  ⟨a.w, a.h, fun x y =>
    let p := a.px x y
    let q := b.px x y
    { r := p.r * q.r / 255, g := p.g * q.g / 255, b := p.b * q.b / 255
    , a := p.a * q.a / 255 }⟩

/-- `ImageChops.multiply` on single bands. -/
def multiplyMask (a b : Mask) : Mask :=
  ⟨a.w, a.h, fun x y => a.px x y * b.px x y / 255⟩

/-- `ImageOps.invert` on a grayscale band. -/
def invertMask (m : Mask) : Mask := ⟨m.w, m.h, fun x y => 255 - m.px x y⟩

/-- `ImageOps.flip`: top-to-bottom mirror. -/
def flipV (img : Raster) : Raster :=
  ⟨img.w, img.h, fun x y => img.px x (img.h - 1 - y)⟩

/-- `ImageEnhance.Brightness(img).enhance(f)`: scale RGB by `f` (floored,
clamped); alpha preserved (stand-in for PIL's interpolation enhancer). -/
def enhanceBrightness (img : Raster) (f : ℚ) : Raster :=
  ⟨img.w, img.h, fun x y =>
    let p := img.px x y
    { r := clamp255 ⌊(p.r : ℚ) * f⌋
    , g := clamp255 ⌊(p.g : ℚ) * f⌋
    , b := clamp255 ⌊(p.b : ℚ) * f⌋
    , a := p.a }⟩

/-- The mean gray level of an image (used by PIL's contrast enhancer). -/
def meanGray (img : Raster) : ℚ :=
  (∑ p in Finset.range img.w ×ˢ Finset.range img.h, ((toGray img).px p.1 p.2 : ℚ))
    / (img.w * img.h)

/-- `ImageEnhance.Contrast(img).enhance(f)`: interpolate away from the mean
gray level (floored, clamped); alpha preserved (stand-in). -/
def enhanceContrast (img : Raster) (f : ℚ) : Raster :=
  ⟨img.w, img.h, fun x y =>
    let p := img.px x y
    { r := clamp255 ⌊meanGray img + f * ((p.r : ℚ) - meanGray img)⌋
    , g := clamp255 ⌊meanGray img + f * ((p.g : ℚ) - meanGray img)⌋
    , b := clamp255 ⌊meanGray img + f * ((p.b : ℚ) - meanGray img)⌋
    , a := p.a }⟩

/-! ## Processor functions (`src/processor.py`) -/

/-- The pipeline's external collaborators (spec §1/§6): the segmentation
model (`rembg.remove`, wrapped by `remove_background`), the on-disk
background-asset catalog read by `load_background` (`none` models a missing
file), and the film-grain noise samples drawn from `np.random.normal`
(indexed channel, x, y). -/
structure Env where
  segment : Raster → Raster
  asset : String → Option Raster
  noise : Nat → Nat → Nat → Int

/-- `create_drop_shadow(image, offset, background_color, blur)` (lines
47–71): pad the container by `4·blur` on every side, paste the subject's
alpha at `pad + offset`, Gaussian-blur, colorize the mask; returns the
shadow layer and the padding.  (The source's early return for images
without an alpha band is vacuous here: every modeled raster is RGBA.) -/
def create_drop_shadow (image : Raster) (offset : Int × Int)
    (background_color : RGBA) (blur : Nat) : Raster × Nat :=
  let pad := blur * 4
  let shadow_mask0 := pasteMask (Mask.zero (image.w + pad * 2) (image.h + pad * 2))
    (alphaMask image) ((pad : Int) + offset.1, (pad : Int) + offset.2)
  let shadow_mask := gaussianBlurMask shadow_mask0 (blur : ℚ)
  (⟨shadow_mask.w, shadow_mask.h, fun x y =>
    { r := background_color.r, g := background_color.g, b := background_color.b
    , a := shadow_mask.px x y }⟩, pad)

/-- `create_perspective_shadow(image, scale_y, blur, opacity)` (lines
73–97): squash the silhouette vertically and anchor it at the bottom. -/
def create_perspective_shadow (image : Raster) (scale_y : ℚ) (blur : Nat)
    (opacity : ℚ) : Raster :=
  let silhouette := pasteConstMask (Mask.zero image.w image.h) 255 (alphaMask image) (0, 0)
  let shadow_h := (⌊(image.h : ℚ) * scale_y⌋).toNat
  let shadow_img := resizeMask silhouette (image.w, shadow_h)
  let shadow_layer := solidRaster image.w shadow_h ⟨0, 0, 0, (⌊255 * opacity⌋).toNat⟩
  let final_shadow := pasteMasked (clearRaster image.w image.h) shadow_layer shadow_img
    (0, (image.h : Int) - (shadow_h : Int))
  gaussianBlur final_shadow (blur : ℚ)

/-- `apply_rim_glow(image, color, power, blur)` (lines 99–120): blurred
alpha becomes a colorized glow painted behind the subject. -/
def apply_rim_glow (image : Raster) (color : Nat × Nat × Nat) (power : ℚ)
    (blur : Nat) : Raster :=
  let glow_mask := gaussianBlurMask (alphaMask image) (blur : ℚ)
  let glow_color := solidRaster image.w image.h
    ⟨color.1, color.2.1, color.2.2, (⌊100 * power⌋).toNat⟩
  let glow_layer := pasteMasked (clearRaster image.w image.h) glow_color glow_mask (0, 0)
  let combined := pasteImg (clearRaster image.w image.h) glow_layer (0, 0)
  pasteImg combined image (0, 0)

/-- `apply_light_wrap(product, background, pos, intensity, blur)` (lines
122–149): two-pass edge integration of background color. -/
def apply_light_wrap (product background : Raster) (pos : Int × Int)
    (intensity : ℚ) (blur : Nat) : Raster :=
  let bg_crop := cropAt background pos (product.w, product.h)
  let alpha := alphaMask product
  let edges_sharp := gaussianBlurMask (findEdgesMask alpha) 1
  let bg_blurred_sharp := gaussianBlur bg_crop 3
  let layer_sharp := pasteMasked (clearRaster product.w product.h) bg_blurred_sharp
    edges_sharp (0, 0)
  let edges_soft := gaussianBlurMask (findEdgesMask alpha) 3
  let bg_blurred_soft := gaussianBlur bg_crop (blur : ℚ)
  let layer_soft := pasteMasked (clearRaster product.w product.h) bg_blurred_soft
    edges_soft (0, 0)
  let res := alphaComposite product layer_sharp
  blend res (alphaComposite res layer_soft) intensity

/-- `apply_scene_shadows(product, background, pos, intensity)` (lines
151–177): multiply inverted background luminance onto the subject. -/
def apply_scene_shadows (product background : Raster) (pos : Int × Int)
    (intensity : ℚ) : Raster :=
  let bg_crop := toGray (cropAt background pos (product.w, product.h))
  let bg_shadows := gaussianBlurMask (invertMask bg_crop) 2
  let rgb := toRGB product
  let shadowed_rgb := multiplyRaster rgb (grayToRGB bg_shadows)
  let blended_rgb := blend rgb shadowed_rgb intensity
  pasteMasked product blended_rgb (alphaMask product) (0, 0)

/-- `apply_film_grain(image, intensity)` (lines 179–194): add the sampled
sensor noise to RGB (the `Env` noise source models the draws of
`np.random.normal(0, intensity*255)`), clip, restore alpha. -/
def apply_film_grain (noise : Nat → Nat → Nat → Int) (image : Raster) : Raster :=
  ⟨image.w, image.h, fun x y =>
    let p := image.px x y
    { r := clamp255 ((p.r : Int) + noise 0 x y)
    , g := clamp255 ((p.g : Int) + noise 1 x y)
    , b := clamp255 ((p.b : Int) + noise 2 x y)
    , a := p.a }⟩

/-- `apply_cinematic_effects(image, is_dark_bg, is_dark_product, tint_color)`
(lines 196–228): tint → brightness/contrast lift → rim glow → sharpen. -/
def apply_cinematic_effects (image : Raster) (is_dark_bg is_dark_product : Bool)
    (tint_color : Option (Nat × Nat × Nat)) : Raster :=
  let processed0 :=
    match tint_color with
    | some c =>
        putalpha (blend (toRGB image)
          (solidRaster image.w image.h ⟨c.1, c.2.1, c.2.2, 255⟩) (2/100))
          (alphaMask image)
    | none => image
  let processed1 :=
    if is_dark_product then enhanceContrast (enhanceBrightness processed0 (11/10)) (105/100)
    else processed0
  let processed2 :=
    if is_dark_bg then apply_rim_glow processed1 (255, 255, 255) (11/10) 5
    else processed1
  sharpen processed2

/-- `load_background(bg_name, target_size)` (lines 230–238): resize the
catalog asset when present, otherwise a flat white canvas (the spec's
`AssetMissingError` graceful degradation). -/
def load_background (asset : String → Option Raster) (bg_name : String)
    (target_size : Nat × Nat) : Raster :=
  match asset bg_name with
  | some img => resize img target_size
  | none => solidRaster target_size.1 target_size.2 ⟨255, 255, 255, 255⟩

/-- The point op `alpha.point(lambda x: 255 if x == 0 else 0)` of
`solidify_edges`. -/
def zeroAlphaMask (m : Mask) : Mask :=
  ⟨m.w, m.h, fun x y => if m.px x y = 0 then 255 else 0⟩

/-- `solidify_edges(image, iterations)` (lines 240–262): iteratively bleed
blurred subject color into the fully transparent border pixels. -/
def solidify_edges (image : Raster) (iterations : Nat) : Raster :=
  let alpha := alphaMask image
  let mask := zeroAlphaMask alpha
  let rgb := (fun r => pasteMasked r (gaussianBlur r 3) mask (0, 0))^[iterations]
    (toRGB image)
  mergeRGBA rgb alpha

/-- `feather_edges(image, blur_radius)` (lines 264–281): solidify first,
then blur only the alpha band. -/
def feather_edges (image : Raster) (blur_radius : ℚ) : Raster :=
  let image2 := solidify_edges image 2
  let alpha := gaussianBlurMask (alphaMask image2) blur_radius
  putalpha image2 alpha

/-- The per-row gradient value of `create_reflection` (line 292):
`int(255·opacity·(1−(y/h)^1.5))`, clamped below at 0.  The float power
`(y/h)**1.5` is embedded as `y·√(y·h)/h²` with the integer square root
(an exact-real identity, integer-approximated). -/
def reflectionGradient (hgt : Nat) (opacity : ℚ) (y : Nat) : Nat :=
  (max 0 ⌊255 * opacity * (1 - ((y * Nat.sqrt (y * hgt) : ℚ) / ((hgt : ℚ) ^ 2)))⌋).toNat

/-- `create_reflection(image, opacity, blur)` (lines 283–300): vertical flip
faded by a top-to-bottom power gradient. -/
def create_reflection (image : Raster) (opacity : ℚ) (blur : Nat) : Raster :=
  let reflection := flipV image
  let gradient : Mask := ⟨image.w, image.h, fun _ y => reflectionGradient image.h opacity y⟩
  let new_alpha := multiplyMask (alphaMask reflection) gradient
  gaussianBlur (putalpha reflection new_alpha) (blur : ℚ)

/-! ## Style catalog, staging flags, geometry -/

/-- The style catalog `image_bg_map` (lines 324–336): public style name →
on-disk asset key. -/
def image_bg_map : List (String × String) :=
  [ ("Realistic Studio", "studio_floor")
  , ("Wooden Floor", "wood_floor")
  , ("Marble Floor", "marble_floor")
  , ("Grey Marble Floor", "grey_marble_floor")
  , ("Premium Dark Marble", "premium_dark_marble")
  , ("Premium White Marble", "premium_white_marble")
  , ("Midnight Obsidian Marble", "obsidian_marble")
  , ("Dark Studio (Flat Lay)", "dark_studio_floor")
  , ("Industrial Slate Floor", "industrial_slate")
  , ("Natural Daylight Studio", "daylight_studio")
  , ("Premium Oak Parquet", "premium_parquet") ]

/-- Python's substring test `pat in hay`. -/
def strContains (hay pat : String) : Bool := decide (pat.data <:+: hay.data)

/-- `is_floor` (line 343): the name contains one of the floor substrings. -/
def is_floor_name (name : String) : Bool :=
  ["Floor", "Marble", "Studio", "Slate", "Parquet"].any fun k => strContains name k

/-- `is_flat_lay` (line 346). -/
def is_flat_lay_name (name : String) : Bool :=
  ["Flat Lay", "Daylight", "Parquet"].any fun k => strContains name k

/-- `is_dark_bg` (line 396). -/
def is_dark_bg_name (name : String) : Bool :=
  ["Dark", "Obsidian", "Slate"].any fun k => strContains name k

/-- The perspective scale factor (line 353): `0.65 if is_flat_lay else
(0.45 if is_spotlight else 0.5)`. -/
def scale_factor (is_flat_lay is_spotlight : Bool) : ℚ :=
  if is_flat_lay then 65/100 else if is_spotlight then 45/100 else 1/2

/-- The uniform floor-branch scale (lines 353–356):
`target_h / orig_h` with `target_h = int(bg_h * scale_factor)` (Python `int`
truncation, a floor on these nonnegative values) and `orig_h` the pre-pad
trimmed subject height. -/
def floorScale (bg_h orig_h : Nat) (is_flat_lay is_spotlight : Bool) : ℚ :=
  ((⌊(bg_h : ℚ) * scale_factor is_flat_lay is_spotlight⌋ : ℤ) : ℚ) / (orig_h : ℚ)

/-- The resize target of line 357: `(int(w*scale), int(h*scale))`. -/
def scaledSize (wh : Nat × Nat) (scale : ℚ) : Nat × Nat :=
  ((⌊(wh.1 : ℚ) * scale⌋).toNat, (⌊(wh.2 : ℚ) * scale⌋).toNat)

/-- The subject anchor (lines 390–392): `pos_x = (bg_w - p_w)//2` (Python
floor division); `pos_y` is the centered `(bg_h - p_h)//2` for spotlight or
flat-lay, else `int(bg_h*0.7) - p_h`. -/
def anchorPos (bg_w bg_h p_w p_h : Nat) (is_spotlight is_flat_lay : Bool) : Int × Int :=
  (Int.fdiv ((bg_w : Int) - (p_w : Int)) 2,
   if is_spotlight || is_flat_lay then Int.fdiv ((bg_h : Int) - (p_h : Int)) 2
   else ⌊(bg_h : ℚ) * (7/10)⌋ - (p_h : Int))

/-! ## The entry point `process_product_photo` -/

/-- Python `str.lower()` (ASCII strings). -/
def pyLower (s : String) : String := ⟨s.data.map Char.toLower⟩

/-- Python `str.capitalize()`: first character uppercased, the rest
lowercased. -/
def pyCapitalize (s : String) : String :=
  match s.data with
  | [] => ""
  | c :: cs => ⟨Char.toUpper c :: cs.map Char.toLower⟩

/-- The error kinds the entry point can report to its caller.  The spec's
§7 taxonomy demands a `NoSubjectError` for an empty segmentation bounding
box; the source contains no `raise` on any modeled path, so no constructor
is ever produced by `process_product_photo` below. -/
inductive ProcError where
  | noSubject
deriving DecidableEq

/-- The flat-color branch (lines 467–478): explicit `"White"`/`"Black"`
(exact, capitalized comparison) or brightness-driven auto choice, then
feather and composite onto the solid color.  (`Image.new` color names:
`"white"` = (255,255,255,255), `"black"` = (0,0,0,255).) -/
def colorPath (manual_bg : Option String) (no_bg : Raster) : Raster × String :=
  let bg_color :=
    match manual_bg with
    | some s =>
        if s = "White" ∨ s = "Black" then pyLower s
        else if is_product_white no_bg 200 then "black" else "white"
    | none => if is_product_white no_bg 200 then "black" else "white"
  let no_bg2 := feather_edges no_bg (7/10)
  let bgPix : RGBA := if bg_color = "black" then ⟨0, 0, 0, 255⟩ else ⟨255, 255, 255, 255⟩
  let final_render := pasteImg (solidRaster no_bg2.w no_bg2.h bgPix) no_bg2 (0, 0)
  (toRGB final_render, pyCapitalize bg_color)

/-- The background-plate branch (lines 338–465): staging flags from the
style name, perspective scaling, adaptive edge purity, feathering,
positioning, cinematic pass, light integration, layered shadow rendering,
grain.  `orig_h` is the pre-pad trimmed subject height (line 318). -/
def platePath (env : Env) (no_bg : Raster) (orig_h : Nat)
    (manual_bg bg_key : String) : Raster × String :=
  let bg_layer := load_background env.asset bg_key (no_bg.w, no_bg.h)
  let bg_w := bg_layer.w
  let bg_h := bg_layer.h
  let is_floor := is_floor_name manual_bg
  let is_marble := strContains manual_bg "Marble"
  let is_spotlight := strContains manual_bg "Obsidian"
  let is_flat_lay := is_flat_lay_name manual_bg
  let is_slate := strContains manual_bg "Slate"
  let is_daylight := strContains manual_bg "Daylight"
  -- 4. perspective scaling
  let pp0 :=
    if is_floor then
      resize no_bg (scaledSize (no_bg.w, no_bg.h) (floorScale bg_h orig_h is_flat_lay is_spotlight))
    else no_bg
  -- 5. adaptive edge purity (first classification, pre-refinement)
  let is_light_prod := is_product_white pp0 200
  let shrunk_mask := minFilterMask (alphaMask pp0) 7
  let pp1 := putalpha pp0 shrunk_mask
  let rgb0 := toRGB pp1
  let edge_region := gaussianBlurMask (findEdgesMask shrunk_mask) 1
  let rgb1 :=
    if !is_light_prod then
      pasteMasked rgb0 (enhanceBrightness rgb0 (4/10)) edge_region (0, 0)
    else
      pasteMasked rgb0 (enhanceBrightness rgb0 (105/100)) edge_region (0, 0)
  let pp2 := mergeRGBA rgb1 shrunk_mask
  -- 5b. subpixel anti-aliasing
  let pp3 := feather_edges pp2 (4/10)
  -- 7. positioning
  let p_w := pp3.w
  let p_h := pp3.h
  let pos := anchorPos bg_w bg_h p_w p_h is_spotlight is_flat_lay
  -- 6. cinematic effects
  let avgc := (resize bg_layer (1, 1)).px 0 0
  let is_dark_bg := is_dark_bg_name manual_bg
  let pp4 := apply_cinematic_effects pp3 is_dark_bg (!is_light_prod)
    (some (avgc.r, avgc.g, avgc.b))
  -- 6b. scene shadow projection
  let pp5 :=
    if is_daylight || strContains manual_bg "Parquet" then
      apply_scene_shadows pp4 bg_layer pos (8/100)
    else pp4
  -- 6c. advanced light wrap
  let pp6 := apply_light_wrap pp5 bg_layer pos (12/100) 12
  -- 8. render layers (second classification, post-refinement: line 413
  -- rebinds is_light_prod before the shadow stages)
  let is_light2 := is_product_white pp6 200
  let rendered :=
    if is_floor then
      -- 8a. reflection / light bounce
      let final1 :=
        if is_marble then
          let reflection := create_reflection pp6 (8/100) 4
          pasteImg bg_layer reflection (pos.1, pos.2 + (p_h : Int) - 2)
        else if is_light2 && (is_daylight || strContains manual_bg "Parquet") then
          let bounce := create_drop_shadow pp6 (0, 0) ⟨255, 255, 255, 20⟩ 50
          pasteImg bg_layer bounce.1 (pos.1 - (bounce.2 : Int), pos.2 - (bounce.2 : Int))
        else bg_layer
      -- 8b. shadows anchored to the bottom
      let final2 :=
        if is_flat_lay then
          let offt : Int × Int :=
            if is_daylight || strContains manual_bg "Parquet" then (-12, 10) else (0, 4)
          let base_op : Nat := if is_daylight || strContains manual_bg "Parquet" then 45 else 80
          let shadow_op : Nat := if is_light2 then (⌊(base_op : ℚ) * (3/2)⌋).toNat else base_op
          let shadow_f := create_drop_shadow pp6 offt ⟨0, 0, 0, shadow_op⟩ 35
          let withf := pasteImg final1 shadow_f.1
            (pos.1 - (shadow_f.2 : Int), pos.2 - (shadow_f.2 : Int))
          let contact_op : Nat := if is_light2 then 220 else 160
          let shadow_c := create_drop_shadow pp6 (Int.tdiv offt.1 4, Int.tdiv offt.2 4)
            ⟨0, 0, 0, contact_op⟩ 4
          pasteImg withf shadow_c.1 (pos.1 - (shadow_c.2 : Int), pos.2 - (shadow_c.2 : Int))
        else if is_slate then
          let shadow_op : Nat := if is_light2 then 90 else 60
          let shadow_s := create_drop_shadow pp6 (15, 12) ⟨0, 0, 0, shadow_op⟩ 40
          let withs := pasteImg final1 shadow_s.1
            (pos.1 - (shadow_s.2 : Int), pos.2 - (shadow_s.2 : Int))
          let shadow_c := create_drop_shadow pp6 (3, 2)
            ⟨0, 0, 0, if is_light2 then 200 else 180⟩ 4
          pasteImg withs shadow_c.1 (pos.1 - (shadow_c.2 : Int), pos.2 - (shadow_c.2 : Int))
        else
          let shadow_p := create_perspective_shadow pp6 (2/10) 15
            (if is_light2 then 35/100 else 25/100)
          let withp := pasteImg final1 shadow_p (pos.1, pos.2 + ⌊(p_h : ℚ) * (1/10)⌋)
          let shadow_c := create_drop_shadow pp6 (0, 2)
            ⟨0, 0, 0, if is_light2 then 210 else 180⟩ 2
          let withc := pasteImg withp shadow_c.1
            (pos.1 - (shadow_c.2 : Int), pos.2 - (shadow_c.2 : Int))
          let shadow_s := create_drop_shadow pp6 (0, 4)
            ⟨0, 0, 0, if is_light2 then 60 else 40⟩ 25
          pasteImg withc shadow_s.1 (pos.1 - (shadow_s.2 : Int), pos.2 - (shadow_s.2 : Int))
      pasteImg final2 pp6 pos
    else
      -- the non-floor branch (lines 457–460): pos_y is recentered before
      -- the shadow and the final paste
      let pos_y2 : Int := Int.fdiv ((bg_h : Int) - (p_h : Int)) 2
      let shadow_d := create_drop_shadow pp6 (0, 10)
        ⟨0, 0, 0, if is_light2 then 80 else 60⟩ 30
      let withd := pasteImg bg_layer shadow_d.1
        (pos.1 - (shadow_d.2 : Int), pos_y2 - (shadow_d.2 : Int))
      pasteImg withd pp6 (pos.1, pos_y2)
  let final_render := apply_film_grain env.noise rendered
  (toRGB final_render, manual_bg)

/-- `process_product_photo(input_image, manual_bg)` (lines 302–478), the
entry point: segmentation, trim, safe-zone pad, then either the
background-plate branch (style names in `image_bg_map`) or the flat-color
branch.  The codomain is `Except ProcError` so that the error contract the
spec demands is expressible; the source raises no exception on any modeled
path, and correspondingly every branch returns `Except.ok`. -/
def process_product_photo (env : Env) (input_image : Raster)
    (manual_bg : Option String) : Except ProcError (Raster × String) :=
  let no_bg0 := env.segment input_image
  let no_bg1 := trimToContent no_bg0
  let orig_h := no_bg1.h
  let no_bg := padImage no_bg1 100
  match manual_bg with
  | some name =>
      match image_bg_map.lookup name with
      | some bg_key => Except.ok (platePath env no_bg orig_h name bg_key)
      | none => Except.ok (colorPath manual_bg no_bg)
  | none => Except.ok (colorPath manual_bg no_bg)

/-! ## The UI shell (`src/app.py`) -/

/-- The `bg_map` dictionary of `src/app.py` (lines 72–88): what the UI
shell passes to `process_product_photo` for each selectbox option
(`none` models Python `None` for "Auto-detect"). -/
def bg_map : List (String × Option String) :=
  [ ("White", some "white")
  , ("Black", some "black")
  , ("Auto-detect", none)
  , ("Realistic Studio", some "Realistic Studio")
  , ("Wooden Floor", some "Wooden Floor")
  , ("Marble Floor", some "Marble Floor")
  , ("Grey Marble Floor", some "Grey Marble Floor")
  , ("Premium Dark Marble", some "Premium Dark Marble")
  , ("Premium White Marble", some "Premium White Marble")
  , ("Midnight Obsidian Marble", some "Midnight Obsidian Marble")
  , ("Dark Studio (Flat Lay)", some "Dark Studio (Flat Lay)")
  , ("Industrial Slate Floor", some "Industrial Slate Floor")
  , ("Natural Daylight Studio", some "Natural Daylight Studio")
  , ("Premium Oak Parquet", some "Premium Oak Parquet") ]

/-! ## Helper lemmas about labels and the flat-color branch -/

/-- The label component of a `process_product_photo` result (`none` when an
error was reported). -/
def labelOf (res : Except ProcError (Raster × String)) : Option String :=
  match res with
  | Except.ok p => some p.2
  | Except.error _ => none

/-- A raster with no opaque pixel is never classified light. -/
lemma is_product_white_of_empty {img : Raster}
    (h : ¬(opaqueCoords img).Nonempty) (t : ℚ) :
    is_product_white img t = false := by
  cases hb : is_product_white img t
  · rfl
  · exact absurd ((is_product_white_iff img t).mp hb).1 h

/-- On the flat-color branch with neither `"White"` nor `"Black"` selected,
the returned label is decided by `is_product_white`. -/
lemma colorPath_label_auto (manual_bg : Option String) (no_bg : Raster)
    (hW : manual_bg ≠ some "White") (hB : manual_bg ≠ some "Black") :
    (colorPath manual_bg no_bg).2
      = if is_product_white no_bg 200 then "Black" else "White" := by
  have hcb : pyCapitalize "black" = "Black" := by decide
  have hcw : pyCapitalize "white" = "White" := by decide
  cases manual_bg with
  | none =>
      simp only [colorPath]
      by_cases h : is_product_white no_bg 200 <;> simp [h, hcb, hcw]
  | some s =>
      have hs1 : s ≠ "White" := fun h => hW (by rw [h])
      have hs2 : s ≠ "Black" := fun h => hB (by rw [h])
      simp only [colorPath]
      rw [if_neg (by simp [hs1, hs2])]
      by_cases h : is_product_white no_bg 200 <;> simp [h, hcb, hcw]

/-- When `manual_bg` names no catalog plate style and is not an exact
`"White"`/`"Black"`, `process_product_photo` lands on the flat-color branch
and its label is the auto choice computed from the segmented subject
(trim-then-pad leaves the classification unchanged). -/
lemma process_label_auto (env : Env) (input : Raster) (mbg : Option String)
    (hmap : ∀ s, mbg = some s → image_bg_map.lookup s = none)
    (hW : mbg ≠ some "White") (hB : mbg ≠ some "Black") :
    labelOf (process_product_photo env input mbg)
      = some (if is_product_white (env.segment input) 200 then "Black" else "White") := by
  have hinv := is_product_white_trim_pad (env.segment input) 100 200
  cases mbg with
  | none =>
      show some (colorPath none (padImage (trimToContent (env.segment input)) 100)).2 = _
      rw [colorPath_label_auto none _ (by simp) (by simp), hinv]
  | some s =>
      have hl := hmap s rfl
      show labelOf (match image_bg_map.lookup s with
        | some bg_key => Except.ok (platePath env
            (padImage (trimToContent (env.segment input)) 100)
            (trimToContent (env.segment input)).h s bg_key)
        | none => Except.ok (colorPath (some s)
            (padImage (trimToContent (env.segment input)) 100))) = _
      rw [hl]
      show some (colorPath (some s) (padImage (trimToContent (env.segment input)) 100)).2 = _
      rw [colorPath_label_auto (some s) _ hW hB, hinv]

/-! ## Concrete fixtures for witnesses -/

/-- A 1×1 fully opaque white raster. -/
def white1 : Raster := solidRaster 1 1 ⟨255, 255, 255, 255⟩

/-- A 1×1 fully opaque dark raster. -/
def dark1 : Raster := solidRaster 1 1 ⟨10, 10, 10, 255⟩

/-- An environment whose segmentation always returns the white subject. -/
def procEnvWhite : Env := ⟨fun _ => white1, fun _ => none, fun _ _ _ => 0⟩

/-- An environment whose segmentation always returns the dark subject. -/
def procEnvDark : Env := ⟨fun _ => dark1, fun _ => none, fun _ _ _ => 0⟩

/-- An environment whose segmentation returns a fully transparent raster
(the empty-bounding-box case). -/
def procEnvEmpty : Env := ⟨fun _ => clearRaster 1 1, fun _ => none, fun _ _ _ => 0⟩

/-- A 2×2 raster whose only opaque pixel is at (1, 0). -/
def oneDot : Raster :=
  ⟨2, 2, fun x y => if x = 1 ∧ y = 0 then ⟨9, 9, 9, 255⟩ else RGBA.clear⟩

/-- A 1×1 opaque gray raster of brightness 210. -/
def gray210 : Raster := solidRaster 1 1 ⟨210, 210, 210, 255⟩

/-! ## The claims -/

/-- C3: for every RGBA raster with at least one pixel of non-zero alpha, the
trim step (`getbbox` then `crop`) produces exactly the minimal bounding box
of the non-zero-alpha pixels: every opaque pixel lies inside the box, and
each of the four edges of the cropped output carries at least one opaque
pixel. -/
theorem C3_trim_minimal_bbox (img : Raster) (hne : (opaqueCoords img).Nonempty) :
    ∃ b : Box, getbbox img = some b ∧ trimToContent img = crop img b ∧
      (∀ p ∈ opaqueCoords img,
        b.left ≤ p.1 ∧ p.1 < b.right ∧ b.upper ≤ p.2 ∧ p.2 < b.lower) ∧
      (∃ y, y < (crop img b).h ∧ 0 < ((crop img b).px 0 y).a) ∧
      (∃ y, y < (crop img b).h ∧ 0 < ((crop img b).px ((crop img b).w - 1) y).a) ∧
      (∃ x, x < (crop img b).w ∧ 0 < ((crop img b).px x 0).a) ∧
      (∃ x, x < (crop img b).w ∧ 0 < ((crop img b).px x ((crop img b).h - 1)).a) := by
  have hb : ∃ b, getbbox img = some b := by
    rw [getbbox, dif_pos hne]
    exact ⟨_, rfl⟩
  obtain ⟨b, hb⟩ := hb
  have hbd := getbbox_bounds hb
  refine ⟨b, hb, by unfold trimToContent; rw [hb], fun p hp => getbbox_contains hb hp, ?_, ?_, ?_, ?_⟩
  · obtain ⟨p, hp, hpe⟩ := getbbox_left_attained hb
    have hc := getbbox_contains hb hp
    refine ⟨p.2 - b.upper, ?_, ?_⟩
    · show p.2 - b.upper < b.lower - b.upper
      omega
    · show 0 < (img.px (b.left + 0) (b.upper + (p.2 - b.upper))).a
      have e1 : b.left + 0 = p.1 := by omega
      have e2 : b.upper + (p.2 - b.upper) = p.2 := by omega
      rw [e1, e2]
      exact (mem_opaqueCoords.mp hp).2.2
  · obtain ⟨p, hp, hpe⟩ := getbbox_right_attained hb
    have hc := getbbox_contains hb hp
    refine ⟨p.2 - b.upper, ?_, ?_⟩
    · show p.2 - b.upper < b.lower - b.upper
      omega
    · show 0 < (img.px (b.left + (b.right - b.left - 1)) (b.upper + (p.2 - b.upper))).a
      have e1 : b.left + (b.right - b.left - 1) = p.1 := by omega
      have e2 : b.upper + (p.2 - b.upper) = p.2 := by omega
      rw [e1, e2]
      exact (mem_opaqueCoords.mp hp).2.2
  · obtain ⟨p, hp, hpe⟩ := getbbox_upper_attained hb
    have hc := getbbox_contains hb hp
    refine ⟨p.1 - b.left, ?_, ?_⟩
    · show p.1 - b.left < b.right - b.left
      omega
    · show 0 < (img.px (b.left + (p.1 - b.left)) (b.upper + 0)).a
      have e1 : b.left + (p.1 - b.left) = p.1 := by omega
      have e2 : b.upper + 0 = p.2 := by omega
      rw [e1, e2]
      exact (mem_opaqueCoords.mp hp).2.2
  · obtain ⟨p, hp, hpe⟩ := getbbox_lower_attained hb
    have hc := getbbox_contains hb hp
    refine ⟨p.1 - b.left, ?_, ?_⟩
    · show p.1 - b.left < b.right - b.left
      omega
    · show 0 < (img.px (b.left + (p.1 - b.left)) (b.upper + (b.lower - b.upper - 1))).a
      have e1 : b.left + (p.1 - b.left) = p.1 := by omega
      have e2 : b.upper + (b.lower - b.upper - 1) = p.2 := by omega
      rw [e1, e2]
      exact (mem_opaqueCoords.mp hp).2.2

/-- Witness for C3 at the concrete raster `oneDot`. -/
theorem C3_witness :
    (opaqueCoords oneDot).Nonempty ∧
    (∃ b : Box, getbbox oneDot = some b ∧ trimToContent oneDot = crop oneDot b ∧
      (∀ p ∈ opaqueCoords oneDot,
        b.left ≤ p.1 ∧ p.1 < b.right ∧ b.upper ≤ p.2 ∧ p.2 < b.lower) ∧
      (∃ y, y < (crop oneDot b).h ∧ 0 < ((crop oneDot b).px 0 y).a) ∧
      (∃ y, y < (crop oneDot b).h ∧
        0 < ((crop oneDot b).px ((crop oneDot b).w - 1) y).a) ∧
      (∃ x, x < (crop oneDot b).w ∧ 0 < ((crop oneDot b).px x 0).a) ∧
      (∃ x, x < (crop oneDot b).w ∧
        0 < ((crop oneDot b).px x ((crop oneDot b).h - 1)).a)) :=
  ⟨by decide, C3_trim_minimal_bbox oneDot (by decide)⟩

/-- C4: `is_product_white` returns true iff the mean of the R,G,B values
over exactly the pixels with positive alpha strictly exceeds the threshold,
and returns false (no error) when no pixel is opaque. -/
theorem C4_mean_brightness (img : Raster) (t : ℚ) :
    (is_product_white img t = true ↔
      (opaqueCoords img).Nonempty ∧ t < meanBrightness img) ∧
    (opaqueCoords img = ∅ → is_product_white img t = false) := by
  refine ⟨is_product_white_iff img t, fun he => ?_⟩
  exact is_product_white_of_empty (by rw [he]; exact Finset.not_nonempty_empty) t

/-- Witness for C4: the white pixel is classified light at threshold 200,
and the transparent raster is classified not-light. -/
theorem C4_witness :
    (is_product_white white1 200 = true ↔
      (opaqueCoords white1).Nonempty ∧ (200 : ℚ) < meanBrightness white1) ∧
    (opaqueCoords (clearRaster 1 1) = ∅ →
      is_product_white (clearRaster 1 1) 200 = false) ∧
    opaqueCoords (clearRaster 1 1) = ∅ ∧ is_product_white white1 200 = true :=
  ⟨(C4_mean_brightness white1 200).1, (C4_mean_brightness (clearRaster 1 1) 200).2,
    by decide, by decide⟩

/-- C5: `is_product_white` is monotone in pixel brightness: with identical
dimensions and alpha channels, raising every R,G,B value of every opaque
pixel cannot turn a light classification into a dark one. -/
theorem C5_monotone (A B : Raster) (t : ℚ)
    (hw : B.w = A.w) (hh : B.h = A.h)
    (ha : ∀ x, x < A.w → ∀ y, y < A.h → (B.px x y).a = (A.px x y).a)
    (hmono : ∀ x, x < A.w → ∀ y, y < A.h → 0 < (A.px x y).a →
      (A.px x y).r ≤ (B.px x y).r ∧ (A.px x y).g ≤ (B.px x y).g ∧
      (A.px x y).b ≤ (B.px x y).b)
    (hA : is_product_white A t = true) : is_product_white B t = true := by
  have hco : opaqueCoords B = opaqueCoords A := by
    ext p
    rw [mem_opaqueCoords, mem_opaqueCoords, hw, hh]
    constructor
    · rintro ⟨h1, h2, h3⟩
      refine ⟨h1, h2, ?_⟩
      rw [← ha p.1 h1 p.2 h2]
      exact h3
    · rintro ⟨h1, h2, h3⟩
      refine ⟨h1, h2, ?_⟩
      rw [ha p.1 h1 p.2 h2]
      exact h3
  obtain ⟨hne, hlt⟩ := (is_product_white_iff A t).mp hA
  have hsum : brightSum A ≤ brightSum B := by
    unfold brightSum
    rw [hco]
    refine Finset.sum_le_sum fun p hp => ?_
    have hm := mem_opaqueCoords.mp hp
    obtain ⟨h1, h2, h3⟩ := hmono p.1 hm.1 p.2 hm.2.1 hm.2.2
    gcongr
  have hmean : meanBrightness A ≤ meanBrightness B := by
    unfold meanBrightness
    rw [hco]
    have hcpos : (0 : ℚ) < 3 * ((opaqueCoords A).card : ℚ) := by
      have := Finset.card_pos.mpr hne
      positivity
    exact div_le_div_of_nonneg_right hsum hcpos.le
  refine (is_product_white_iff B t).mpr ⟨?_, lt_of_lt_of_le hlt hmean⟩
  rw [hco]
  exact hne

/-- Witness for C5: brightening the 1×1 gray-210 subject to white preserves
the light classification at threshold 200. -/
theorem C5_witness : is_product_white white1 200 = true :=
  C5_monotone gray210 white1 200 (by decide) (by decide)
    (by decide) (by decide) (by decide)

/-- C6: `create_drop_shadow` output dimensions are the subject's plus
`2·(4·blur)` in each direction, independent of the offset, and the returned
padding is `4·blur`. -/
theorem C6_drop_shadow_dims (image : Raster) (offset : Int × Int)
    (background_color : RGBA) (blur : Nat) :
    (create_drop_shadow image offset background_color blur).1.w
        = image.w + 2 * (4 * blur) ∧
    (create_drop_shadow image offset background_color blur).1.h
        = image.h + 2 * (4 * blur) ∧
    (create_drop_shadow image offset background_color blur).2 = 4 * blur := by
  refine ⟨?_, ?_, ?_⟩ <;>
    simp only [create_drop_shadow, gaussianBlurMask, pasteMask, Mask.zero] <;>
    ring

/-- C7 as stated fails on the code: the pipeline's scale is
`int(bg_h·scaleFactor)/orig_h` with an integer truncation of the target
height, so at bg_h = 501, orig_h = 301 on a flat-lay floor the scale is
`325/301`, not the claimed `(501·0.65)/301 = 325.65/301`. -/
theorem C7_counterexample :
    floorScale 501 301 true false ≠ ((501 : ℚ) * (65/100)) / 301 := by
  norm_num [floorScale, scale_factor]

/-- C7 amended: for floor-style backgrounds, the uniform scale is
`⌊bg_h·scaleFactor⌋ / orig_h`, with scaleFactor 0.65 when flat-lay, 0.45
when spotlight and not flat-lay, and 0.5 otherwise, and with the pre-pad
trimmed subject height `orig_h` as the divisor. -/
theorem C7_floor_scale (bg_h orig_h : Nat) (fl sp : Bool) :
    (fl = true → floorScale bg_h orig_h fl sp
        = ((⌊(bg_h : ℚ) * (65/100)⌋ : ℤ) : ℚ) / (orig_h : ℚ)) ∧
    (fl = false → sp = true → floorScale bg_h orig_h fl sp
        = ((⌊(bg_h : ℚ) * (45/100)⌋ : ℤ) : ℚ) / (orig_h : ℚ)) ∧
    (fl = false → sp = false → floorScale bg_h orig_h fl sp
        = ((⌊(bg_h : ℚ) * (1/2)⌋ : ℤ) : ℚ) / (orig_h : ℚ)) := by
  refine ⟨fun h1 => ?_, fun h1 h2 => ?_, fun h1 h2 => ?_⟩
  · simp [floorScale, scale_factor, h1]
  · simp [floorScale, scale_factor, h1, h2]
  · simp [floorScale, scale_factor, h1, h2]

/-- Witness for C7 on the flat-lay case at bg_h = 501, orig_h = 301. -/
theorem C7_witness :
    floorScale 501 301 true false = ((⌊(501 : ℚ) * (65/100)⌋ : ℤ) : ℚ) / (301 : ℚ) :=
  (C7_floor_scale 501 301 true false).1 rfl

/-- C8: the anchor of the plate path horizontally centers the subject (the
left and right margins differ by at most the floor-division remainder of
one pixel); vertically it centers for spotlight or flat-lay, and otherwise
places the subject's bottom row at `int(bg_h·0.7)`. -/
theorem C8_anchor (bg_w bg_h p_w p_h : Nat) (sp fl : Bool) :
    ((anchorPos bg_w bg_h p_w p_h sp fl).1
        ≤ (bg_w : Int) - p_w - (anchorPos bg_w bg_h p_w p_h sp fl).1 ∧
      (bg_w : Int) - p_w - (anchorPos bg_w bg_h p_w p_h sp fl).1
        ≤ (anchorPos bg_w bg_h p_w p_h sp fl).1 + 1) ∧
    ((sp || fl) = true →
      (anchorPos bg_w bg_h p_w p_h sp fl).2
          ≤ (bg_h : Int) - p_h - (anchorPos bg_w bg_h p_w p_h sp fl).2 ∧
        (bg_h : Int) - p_h - (anchorPos bg_w bg_h p_w p_h sp fl).2
          ≤ (anchorPos bg_w bg_h p_w p_h sp fl).2 + 1) ∧
    ((sp || fl) = false →
      (anchorPos bg_w bg_h p_w p_h sp fl).2 + p_h = ⌊(bg_h : ℚ) * (7/10)⌋) := by
  have hfd : ∀ W P : ℤ, Int.fdiv (W - P) 2 ≤ W - P - Int.fdiv (W - P) 2 ∧
      W - P - Int.fdiv (W - P) 2 ≤ Int.fdiv (W - P) 2 + 1 := by
    intro W P
    have h : Int.fdiv (W - P) 2 = (W - P) / 2 := by
      rw [Int.fdiv_eq_ediv]
      decide
    omega
  refine ⟨?_, fun hc => ?_, fun hc => ?_⟩
  · exact hfd (bg_w : Int) (p_w : Int)
  · have h2 : (anchorPos bg_w bg_h p_w p_h sp fl).2
        = Int.fdiv ((bg_h : Int) - (p_h : Int)) 2 := by
      show (if (sp || fl) = true then Int.fdiv ((bg_h : Int) - (p_h : Int)) 2
        else ⌊(bg_h : ℚ) * (7/10)⌋ - (p_h : Int)) = _
      rw [hc]
      simp
    rw [h2]
    exact hfd (bg_h : Int) (p_h : Int)
  · have h2 : (anchorPos bg_w bg_h p_w p_h sp fl).2
        = ⌊(bg_h : ℚ) * (7/10)⌋ - (p_h : Int) := by
      show (if (sp || fl) = true then Int.fdiv ((bg_h : Int) - (p_h : Int)) 2
        else ⌊(bg_h : ℚ) * (7/10)⌋ - (p_h : Int)) = _
      rw [hc]
      simp
    rw [h2]
    omega

/-- Witness for C8 at concrete sizes, both vertical cases. -/
theorem C8_witness :
    ((false || false) = false →
      (anchorPos 300 210 100 50 false false).2 + 50 = ⌊(210 : ℚ) * (7/10)⌋) ∧
    ((true || false) = true →
      (anchorPos 300 210 100 50 true false).2
          ≤ (210 : Int) - 50 - (anchorPos 300 210 100 50 true false).2 ∧
        (210 : Int) - 50 - (anchorPos 300 210 100 50 true false).2
          ≤ (anchorPos 300 210 100 50 true false).2 + 1) :=
  ⟨fun h => (C8_anchor 300 210 100 50 false false).2.2 h,
   fun h => (C8_anchor 300 210 100 50 true false).2.1 h⟩

/-- C10: every style name in the catalog `image_bg_map` satisfies the floor
predicate (each contains one of the substrings "Floor", "Marble", "Studio",
"Slate", "Parquet"), so the non-floor compositing branch of the plate path
is unreachable for valid plate styles. -/
theorem C10_catalog_all_floor :
    ∀ name ∈ image_bg_map.map Prod.fst, is_floor_name name = true := by
  decide

/-- Witness for C10 at the concrete style "Marble Floor". -/
theorem C10_witness : is_floor_name "Marble Floor" = true :=
  C10_catalog_all_floor "Marble Floor" (by decide)

/-- C1 as stated fails on the code: when segmentation yields an empty
bounding box, `process_product_photo` reports nothing — at the concrete
fully transparent segmentation it returns a normal ok result with the auto
label "White" instead of a "no subject detected" content error. -/
theorem C1_counterexample :
    getbbox (procEnvEmpty.segment white1) = none ∧
    (process_product_photo procEnvEmpty white1 none).isOk = true ∧
    labelOf (process_product_photo procEnvEmpty white1 none) = some "White" := by
  refine ⟨by decide, by rfl, ?_⟩
  rw [process_label_auto procEnvEmpty white1 none (fun s hs => nomatch hs)
    (by decide) (by decide)]
  rw [if_neg (by decide :
    ¬ is_product_white (procEnvEmpty.segment white1) 200 = true)]

/-- C1 amended: an empty segmentation bounding box is NOT reported as an
error by the code: trimming is skipped (`trimToContent` is the identity
there), the call returns a normal ok result, and on the auto path the label
resolves to "White" (an empty subject is classified not-light). -/
theorem C1_empty_bbox_no_error (env : Env) (input : Raster)
    (h : getbbox (env.segment input) = none) :
    trimToContent (env.segment input) = env.segment input ∧
    (process_product_photo env input none).isOk = true ∧
    labelOf (process_product_photo env input none) = some "White" := by
  have hne := (getbbox_eq_none_iff (env.segment input)).mp h
  have hfalse := is_product_white_of_empty hne 200
  refine ⟨by unfold trimToContent; rw [h], rfl, ?_⟩
  rw [process_label_auto env input none (fun s hs => nomatch hs)
    (by simp) (by simp)]
  rw [if_neg (by rw [hfalse]; exact Bool.false_ne_true)]

/-- Witness for the amended C1 at the transparent segmentation. -/
theorem C1_witness :
    getbbox (procEnvEmpty.segment white1) = none ∧
    (trimToContent (procEnvEmpty.segment white1) = procEnvEmpty.segment white1 ∧
     (process_product_photo procEnvEmpty white1 none).isOk = true ∧
     labelOf (process_product_photo procEnvEmpty white1 none) = some "White") :=
  ⟨by decide, C1_empty_bbox_no_error procEnvEmpty white1 (by decide)⟩

/-- C2: when backgroundChoice is absent (None, or a string that is neither
a catalog plate style nor exactly "White"/"Black"), the pipeline resolves
the background from the segmented subject — "Black" if it is classified
light, "White" otherwise — and returns that label as the second output. -/
theorem C2_auto_label (env : Env) (input : Raster) (mbg : Option String)
    (hmap : ∀ s, mbg = some s → image_bg_map.lookup s = none)
    (hW : mbg ≠ some "White") (hB : mbg ≠ some "Black") :
    labelOf (process_product_photo env input mbg)
      = some (if is_product_white (env.segment input) 200 then "Black" else "White") :=
  process_label_auto env input mbg hmap hW hB

/-- Witness for C2: a white subject on auto resolves to "Black". -/
theorem C2_witness :
    labelOf (process_product_photo procEnvWhite white1 none) = some "Black" := by
  rw [C2_auto_label procEnvWhite white1 none (fun s hs => nomatch hs)
    (by decide) (by decide)]
  rw [if_pos (by decide : is_product_white (procEnvWhite.segment white1) 200 = true)]

/-- C9: the UI shell maps the explicit White/Black selections to the
lowercase strings "white"/"black" (`bg_map` in `src/app.py`), which the
processor's capitalized comparison does not recognize and which name no
plate style, so they fall through to brightness auto-detection: a light
subject explicitly set to White receives a Black background, and a dark
subject explicitly set to Black receives White. -/
theorem C9_ui_lowercase_fallthrough :
    bg_map.lookup "White" = some (some "white") ∧
    bg_map.lookup "Black" = some (some "black") ∧
    (∀ env : Env, ∀ input : Raster,
      is_product_white (env.segment input) 200 = true →
      labelOf (process_product_photo env input (some "white")) = some "Black") ∧
    (∀ env : Env, ∀ input : Raster,
      is_product_white (env.segment input) 200 = false →
      labelOf (process_product_photo env input (some "black")) = some "White") := by
  refine ⟨by decide, by decide, fun env input h => ?_, fun env input h => ?_⟩
  · rw [process_label_auto env input (some "white")
      (fun s hs => by rw [← Option.some.inj hs]; decide) (by decide) (by decide)]
    rw [if_pos h]
  · rw [process_label_auto env input (some "black")
      (fun s hs => by rw [← Option.some.inj hs]; decide) (by decide) (by decide)]
    rw [if_neg (by rw [h]; exact Bool.false_ne_true)]

/-- Witness for C9: concrete light and dark subjects with the UI's
lowercase explicit choices. -/
theorem C9_witness :
    labelOf (process_product_photo procEnvWhite white1 (some "white")) = some "Black" ∧
    labelOf (process_product_photo procEnvDark dark1 (some "black")) = some "White" :=
  ⟨C9_ui_lowercase_fallthrough.2.2.1 procEnvWhite white1 (by decide),
   C9_ui_lowercase_fallthrough.2.2.2 procEnvDark dark1 (by decide)⟩
